import Mathlib

/-!
Verification of telloterm (github.com/SMerrony/telloterm) against its
natural-language specification.  The Go source is shallowly embedded:
machine `int16` arithmetic is modelled on `Int` with explicit wrap-around,
strings as Lean `String`, and the concurrently accessed field registry as
an explicit small-step transition system.  Definitions come first, then
the supporting lemmas and the claim theorems.
-/

namespace Telloterm

/-! ## int16 arithmetic

Go's `int16` is a two's-complement 16-bit integer; every arithmetic
operation and conversion wraps modulo 2^16 into [-32768, 32767]. -/

/-- Wrap an unbounded integer into the `int16` range [-32768, 32767],
as Go conversions and `int16` arithmetic do. -/
def wrap16 (x : Int) : Int := (x + 32768) % 65536 - 32768

/-! ## Joystick dead-zone filtering and stick messages (src/joystick.go) -/

/-- The fixed dead-zone threshold (`const deadZone = 2000`, joystick.go:66). -/
def deadZone : Int := 2000

/-- Go `intAbs` (joystick.go:157-162): `if x < 0 { return -x }; return x`
on `int16`, where the negation itself is 16-bit and wraps
(so `intAbs(-32768) = -32768`). -/
def intAbs (x : Int) : Int := if x < 0 then wrap16 (-x) else x

/-- Dead-zone clamp applied to one sign-adjusted axis component
(joystick.go:182-193): `if intAbs(v) < deadZone { v = 0 }`. -/
def applyDeadZone (v : Int) : Int := if intAbs v < deadZone then 0 else v

/-- One Tello stick message: the four signed analog components
(the `tello.StickMessage` fields written by `readJoystick`). -/
structure StickMessage where
  Lx : Int
  Ly : Int
  Rx : Int
  Ry : Int
  deriving Repr, DecidableEq

/-- Axis-index selection of a joystick configuration
(`joystickConfig.axes`, joystick.go:68-71): which raw axis index feeds
each logical stick component. -/
structure AxesConfig where
  leftX : Nat
  leftY : Nat
  rightX : Nat
  rightY : Nat

/-- The Linux DualShock4 axis mapping (joystick.go:73-76). -/
def dualShock4Axes : AxesConfig := { leftX := 0, leftY := 1, rightX := 3, rightY := 4 }

/-- Sign adjustment of an X axis (joystick.go:178,180):
`int16(jsState.AxisData[i])` — just the wrapping conversion from Go `int`. -/
def signAdjX (raw : Int) : Int := wrap16 raw

/-- Sign adjustment of a Y axis (joystick.go:179,181):
`int16(jsState.AxisData[i]) * -1` — wrapping conversion, then 16-bit
negation (which itself wraps at -32768). -/
def signAdjY (raw : Int) : Int := wrap16 (wrap16 raw * -1)

/-- The stick message computed by one poll cycle of `readJoystick`
(joystick.go:178-193) from the device's raw axis data, given the active
axis configuration: sign adjustment followed by per-axis dead-zone
clamping.  `axisData` models `jsState.AxisData` as a total map from axis
index to raw value (the joystick library supplies one entry per device
axis; the zero value of `joystick.State` is modelled as the constant-0
map). -/
def stickMsgOf (cfg : AxesConfig) (axisData : Nat → Int) : StickMessage :=
  { Lx := applyDeadZone (signAdjX (axisData cfg.leftX))
    Ly := applyDeadZone (signAdjY (axisData cfg.leftY))
    Rx := applyDeadZone (signAdjX (axisData cfg.rightX))
    Ry := applyDeadZone (signAdjY (axisData cfg.rightY)) }

/-- The stick messages sent on `stickChan` by one poll cycle of
`readJoystick` (joystick.go:171-200).  A read error is only logged
(joystick.go:174-176) — the cycle is not skipped — and the message is
computed from whatever state the read left in `jsState`; it is sent
exactly when not in test mode (joystick.go:195-200). -/
def cycleStickSends (test : Bool) (cfg : AxesConfig) (axisData : Nat → Int)
    (readErr : Bool) : List StickMessage :=
  if test then [] else [stickMsgOf cfg axisData]

/-! ## Joystick button edge detection (src/joystick.go:202-246) -/

/-- Whether the button at bit position `bit` is pressed in the raw
bitmask `mask` (the Go test `mask & (1 << bit) != 0`). -/
def buttonPressed (mask bit : Nat) : Bool := mask &&& (1 <<< bit) != 0

/-- Button-index selection of a joystick configuration
(`joystickConfig.buttons`, joystick.go:68-71), restricted to the buttons
`readJoystick` checks. -/
structure ButtonsConfig where
  x : Nat
  circle : Nat
  triangle : Nat
  square : Nat
  l1 : Nat
  l2 : Nat

/-- The Linux DualShock4 button mapping (joystick.go:77-80). -/
def dualShock4Buttons : ButtonsConfig :=
  { x := 0, circle := 1, triangle := 2, square := 3, l1 := 4, l2 := 6 }

/-- The one-shot drone commands bound to joystick buttons. -/
inductive DroneCmd where
  | bounce
  | palmLand
  | takePicture
  | takeOff
  | land
  deriving Repr, DecidableEq

/-- The button-to-command bindings checked each cycle, in source order
(joystick.go:202-245).  The circle button (joystick.go:234-238) is
checked but bound to no command outside test mode, so it binds nothing
here. -/
def boundButtons (cfg : ButtonsConfig) : List (Nat × DroneCmd) :=
  [(cfg.l1, DroneCmd.bounce), (cfg.l2, DroneCmd.palmLand),
   (cfg.square, DroneCmd.takePicture), (cfg.triangle, DroneCmd.takeOff),
   (cfg.x, DroneCmd.land)]

/-- Commands dispatched during one poll cycle (joystick.go:202-245): each
bound button dispatches exactly when its bit shows a 0→1 transition from
`prev` to `cur`.  The same `prev` is compared against for every button,
because `prevState` is only overwritten at joystick.go:246, after all
button checks. -/
def cycleButtonCmds (cfg : ButtonsConfig) (prev cur : Nat) : List DroneCmd :=
  (boundButtons cfg).filterMap fun p =>
    if buttonPressed cur p.1 && !buttonPressed prev p.1 then some p.2 else none

/-- Per-cycle dispatch lists across a run of poll cycles whose raw button
bitmasks are `masks`, with previous-state bitmask starting from `prev`
(joystick.go:164-249; `prevState` starts as the zero value 0 and is set
to the just-read mask at the end of each cycle). -/
def runButtonCycles (cfg : ButtonsConfig) (prev : Nat) : List Nat → List (List DroneCmd)
  | [] => []
  | m :: rest => cycleButtonCmds cfg prev m :: runButtonCycles cfg m rest

/-- The bitmask cycle `i`'s edge detection compares against: 0 before the
first cycle, otherwise the preceding cycle's mask. -/
def prevMaskAt (masks : List Nat) : Nat → Nat
  | 0 => 0
  | i + 1 => masks.getD i 0

/-! ## Display-string helpers (src/telloterm.go) -/

/-- Go `padString` (telloterm.go:439-442): `fmt.Sprintf("%-<l>v", s)`.
A Go fmt width is a minimum field width: a shorter string is
left-justified and right-padded with spaces, and a string at least as
long as the width is returned unchanged — fmt width never truncates. -/
def padString (unpadded : String) (l : Nat) : String :=
  if l ≤ unpadded.length then unpadded
  else unpadded ++ String.mk (List.replicate (l - unpadded.length) ' ')

/-- Go `boolToYN` (telloterm.go:444-449): `"Y"` for true, `"N"` for false. -/
def boolToYN (b : Bool) : String := if b then "Y" else "N"

/-- The Home Pos field value assignment in `updateFields`
(telloterm.go:504-508): `"Unset"` when `drone.IsHomeSet()` reports true,
`"Set"` when it reports false. -/
def homePosValue (isHomeSet : Bool) : String := if isHomeSet then "Unset" else "Set"

/-- The integer value passed to `math.Sqrt` in the derived-speed
computation (telloterm.go:460):
`float64(newFd.NorthSpeed*newFd.NorthSpeed) + float64(newFd.EastSpeed*newFd.EastSpeed)`.
`NorthSpeed` and `EastSpeed` are `int16`, so each square is an `int16`
(wrapping) product; the two `float64` conversions and the one addition
are exact at these magnitudes (each operand has absolute value at most
32768), so the float sum equals this integer. -/
def derivedSpeedSumSq (n e : Int) : Int := wrap16 (n * n) + wrap16 (e * e)

/-! ## Flight-data logging (src/telloterm.go) -/

/-- Outcome of one flight-log write site: how many rows were appended and
whether the process terminates. -/
structure LogStepEffect where
  rowsWritten : Nat
  fatal : Bool
  deriving Repr, DecidableEq

/-- The flight-data-log block at the end of `updateFields`
(telloterm.go:513-518) for one telemetry snapshot: when `fdLogging` is
set, one six-column row is built and passed to `fdLog.Write(logLine)`.
That call's error return is discarded by the source, so the process
never terminates at this site, whether or not the write fails. -/
def updateFieldsLogStep (fdLogging writeFails : Bool) : LogStepEffect :=
  if fdLogging then { rowsWritten := 1, fatal := false }
  else { rowsWritten := 0, fatal := false }

/-- The header write during flight-log setup in `main`
(telloterm.go:236-239): `err = fdLog.Write(headers)` is checked and
`log.Fatal`s on error; returns whether the process terminates. -/
def headerWriteFatal (writeFails : Bool) : Bool := writeFails

/-! ## Field registry concurrency model (src/telloterm.go:262-278,429-437)

The registry `fields` is guarded by `fieldsMu sync.RWMutex`.  The
telemetry-ingestion goroutine (telloterm.go:263-270) takes the write
lock, runs one whole `updateFields` batch, and unlocks; the render
goroutine (`displayDataFields`, telloterm.go:429-437) takes the read
lock, reads every field, and unlocks.  We model this as a small-step
system: each value slot carries the id of the batch that last wrote it,
the writer stamps every slot it updates between lock and unlock, and a
reader step can only run while the read lock is held.  `updateFields`
writes 39 of the 41 registry slots (`fRoll` and `fPitch` are never
written, telloterm.go:499-501); the model tracks the written slots. -/

/-- Number of registry value slots `updateFields` writes each batch. -/
def numUpdated : Nat := 39

/-- Global state of the registry plus the RWMutex: `val i` is the id of
the batch that last wrote slot `i` (0 = initial `setupFields` content),
`lastBatch` counts completed batches, `writerHeld`/`readers` is the
RWMutex state, and `written` counts the slots stamped so far by an
in-progress batch. -/
structure RegSys where
  val : Fin numUpdated → Nat
  lastBatch : Nat
  writerHeld : Bool
  written : Nat
  readers : Nat

/-- The initial state: registry as left by `setupFields`, lock free. -/
def initReg : RegSys :=
  { val := fun _ => 0, lastBatch := 0, writerHeld := false, written := 0, readers := 0 }

/-- Atomic steps of the writer and reader goroutines under
`sync.RWMutex` semantics: `fieldsMu.Lock()` blocks until no reader or
writer holds the lock; `fieldsMu.RLock()` blocks while the writer holds
it; one `wWrite` step is one field assignment inside `updateFields`; the
writer unlocks only after the whole batch (telloterm.go:266-268); a
reader micro-step (`rRead`, one field copy in the render loop) requires
the read lock and does not change state. -/
inductive Step : RegSys → RegSys → Prop
  | wLock (s : RegSys) (h1 : s.writerHeld = false) (h2 : s.readers = 0) :
      Step s { s with writerHeld := true, written := 0 }
  | wWrite (s : RegSys) (h1 : s.writerHeld = true) (h2 : s.written < numUpdated) :
      Step s { s with
        val := fun i => if i.val = s.written then s.lastBatch + 1 else s.val i,
        written := s.written + 1 }
  | wUnlock (s : RegSys) (h1 : s.writerHeld = true) (h2 : s.written = numUpdated) :
      Step s { s with writerHeld := false, lastBatch := s.lastBatch + 1 }
  | rLock (s : RegSys) (h1 : s.writerHeld = false) :
      Step s { s with readers := s.readers + 1 }
  | rRead (s : RegSys) (h1 : 0 < s.readers) :
      Step s s
  | rUnlock (s : RegSys) (h1 : 0 < s.readers) :
      Step s { s with readers := s.readers - 1 }

/-- States reachable from the initial registry state by interleaved
writer/reader steps. -/
inductive Reach : RegSys → Prop
  | init : Reach initReg
  | step (s s' : RegSys) : Reach s → Step s s' → Reach s'

/-- Registry invariant: outside a write critical section every slot
carries the last completed batch's id; inside one, slots below `written`
carry the new batch id and the rest the previous one; and the write lock
and read lock are never held simultaneously. -/
def RegInv (s : RegSys) : Prop :=
  (s.writerHeld = false → ∀ i, s.val i = s.lastBatch)
  ∧ (s.writerHeld = true →
      s.written ≤ numUpdated
      ∧ ∀ i : Fin numUpdated,
          (i.val < s.written → s.val i = s.lastBatch + 1)
          ∧ (s.written ≤ i.val → s.val i = s.lastBatch))
  ∧ (0 < s.readers → s.writerHeld = false)

/-! ## The '=' video-mode toggle (src/telloterm.go:362-368) -/

/-- The two video-mode commands the '=' key can issue. -/
inductive VideoCmd where
  | setVideoWide
  | setVideoNormal
  deriving Repr, DecidableEq

/-- Wideness of a video-mode command. -/
def cmdIsWide : VideoCmd → Bool
  | VideoCmd.setVideoWide => true
  | VideoCmd.setVideoNormal => false

/-- One '=' key event (telloterm.go:362-368): issue `SetVideoNormal` if
`wideVideo` is set, else `SetVideoWide`; then flip `wideVideo`.  Returns
the command issued and the new `wideVideo`. -/
def eqKeyStep (wideVideo : Bool) : VideoCmd × Bool :=
  (if wideVideo then VideoCmd.setVideoNormal else VideoCmd.setVideoWide, !wideVideo)

/-- `wideVideo` after `n` '=' events, starting from the package-level
variable's zero value `false` (telloterm.go:179). -/
def wideAfter : Nat → Bool
  | 0 => false
  | n + 1 => (eqKeyStep (wideAfter n)).2

/-- The command issued by the `n`-th '=' event (1-based): computed from
the state left by the preceding `n - 1` events. -/
def nthEqCmd (n : Nat) : VideoCmd := (eqKeyStep (wideAfter (n - 1))).1

/-! ## Supporting lemmas -/

theorem wrap16_eq_of_mem (x : Int) (hlo : -32768 ≤ x) (hhi : x ≤ 32767) :
    wrap16 x = x := by
  unfold wrap16
  have h0 : (0 : Int) ≤ x + 32768 := by omega
  have h1 : x + 32768 < 65536 := by omega
  rw [Int.emod_eq_of_lt h0 h1]
  omega

theorem wrap16_mem (x : Int) : -32768 ≤ wrap16 x ∧ wrap16 x ≤ 32767 := by
  unfold wrap16
  have h65 : (0 : Int) < 65536 := by norm_num
  have h0 := Int.emod_nonneg (x + 32768) (by norm_num : (65536 : Int) ≠ 0)
  have h1 := Int.emod_lt_of_pos (x + 32768) h65
  omega

theorem intAbs_eq_natAbs (v : Int) (hlo : -32768 < v) (hhi : v ≤ 32767) :
    intAbs v = (v.natAbs : Int) := by
  unfold intAbs
  by_cases h : v < 0
  · simp only [h, if_true]
    rw [wrap16_eq_of_mem (-v) (by omega) (by omega)]
    omega
  · simp only [h, if_false]
    omega

/-! ## Claim theorems -/

/-- C1, counterexample.  At the sign-adjusted axis value -32768 (an X
axis reading -32768 passes through unchanged) the true magnitude 32768
is at or above the dead-zone threshold 2000, so the claim requires the
component to equal -32768; but `intAbs` wraps -(-32768) back to -32768,
the dead-zone test `intAbs v < 2000` succeeds, and the dispatched
component is 0. -/
theorem c1_deadZone_counterexample :
    2000 ≤ ((-32768 : Int)).natAbs
    ∧ signAdjX (-32768) = -32768
    ∧ applyDeadZone (-32768) = 0
    ∧ applyDeadZone (-32768) ≠ -32768
    ∧ (stickMsgOf dualShock4Axes fun _ => -32768).Lx = 0 := by
  refine ⟨by norm_num, ?_, ?_, ?_, ?_⟩ <;> decide

/-- C1, amended.  Per axis, with the sign-adjusted raw `int16` value
`v`: when `v ≠ -32768`, a magnitude strictly below the threshold 2000
yields component 0 and a magnitude at or above 2000 yields `v` exactly;
the single exception `v = -32768` is clamped to 0, because `intAbs`
negates -32768 in wrapping 16-bit arithmetic and gets -32768 back, which
passes the `< deadZone` test.  Each component of the dispatched stick
message is the dead-zone clamp of its sign-adjusted raw axis value. -/
theorem c1_deadZone_amended (v : Int) (hlo : -32768 ≤ v) (hhi : v ≤ 32767) :
    (v ≠ -32768 →
      ((v.natAbs < 2000 → applyDeadZone v = 0)
        ∧ (2000 ≤ v.natAbs → applyDeadZone v = v)))
    ∧ (v = -32768 → applyDeadZone v = 0)
    ∧ (∀ cfg axisData, (stickMsgOf cfg axisData).Lx
        = applyDeadZone (signAdjX (axisData cfg.leftX)))
    ∧ (∀ cfg axisData, (stickMsgOf cfg axisData).Ly
        = applyDeadZone (signAdjY (axisData cfg.leftY)))
    ∧ (∀ cfg axisData, (stickMsgOf cfg axisData).Rx
        = applyDeadZone (signAdjX (axisData cfg.rightX)))
    ∧ (∀ cfg axisData, (stickMsgOf cfg axisData).Ry
        = applyDeadZone (signAdjY (axisData cfg.rightY))) := by
  refine ⟨?_, ?_, fun _ _ => rfl, fun _ _ => rfl, fun _ _ => rfl, fun _ _ => rfl⟩
  · intro hne
    have habs := intAbs_eq_natAbs v (by omega) hhi
    constructor
    · intro hlt
      unfold applyDeadZone deadZone
      rw [habs]
      have hc : (v.natAbs : Int) < 2000 := by exact_mod_cast hlt
      rw [if_pos hc]
    · intro hge
      unfold applyDeadZone deadZone
      rw [habs]
      have hc : ¬ ((v.natAbs : Int) < 2000) := by
        have : (2000 : Int) ≤ (v.natAbs : Int) := by exact_mod_cast hge
        omega
      rw [if_neg hc]
  · intro hv
    subst hv
    decide

/-- C1 witness: a below-threshold value is clamped to 0 and an
above-threshold value passes unchanged. -/
theorem c1_deadZone_witness :
    applyDeadZone 1500 = 0 ∧ applyDeadZone 2500 = 2500 := by
  have h1 := c1_deadZone_amended 1500 (by norm_num) (by norm_num)
  have h2 := c1_deadZone_amended 2500 (by norm_num) (by norm_num)
  exact ⟨(h1.1 (by norm_num)).1 (by norm_num), (h2.1 (by norm_num)).2 (by norm_num)⟩

/-- C3, counterexample.  A Go fmt width is only a minimum: `padString`
applied to a 6-character string and width 3 returns the string
unchanged, with length 6, not truncated to length 3. -/
theorem c3_padString_counterexample :
    (padString "abcdef" 3).length = 6
    ∧ (padString "abcdef" 3).length ≠ 3
    ∧ padString "abcdef" 3 = "abcdef" := by
  refine ⟨by decide, by decide, by decide⟩

/-- C3, amended.  The text painted for a field's value has length
`max W (s.length)`: space-padded on the right to exactly `W` when `s`
is no longer than `W`, but returned unchanged — not truncated — when `s`
is longer than `W`. -/
theorem c3_padString_amended (s : String) (l : Nat) :
    (padString s l).length = max l s.length
    ∧ (s.length ≤ l → (padString s l).length = l)
    ∧ (l < s.length → padString s l = s) := by
  unfold padString
  by_cases h : l ≤ s.length
  · rw [if_pos h]
    exact ⟨by omega, fun h2 => by omega, fun _ => rfl⟩
  · rw [if_neg h]
    have hlen : (s ++ String.mk (List.replicate (l - s.length) ' ')).length
        = s.length + (l - s.length) := by
      rw [String.length_append]
      simp only [String.length_mk, List.length_replicate]
    exact ⟨by omega, fun _ => by omega, fun h2 => by omega⟩

/-- C3 witness: padding a short string reaches exactly the field width. -/
theorem c3_padString_witness : (padString "ab" 5).length = 5 := by
  exact (c3_padString_amended "ab" 5).2.1 (by decide)

/-- C4, counterexample.  The squares in the derived-speed computation
are `int16` products: at NorthSpeed = 200, EastSpeed = 0 the square
200 * 200 = 40000 wraps to -25536, so the value under the square root is
not the exact integer 40000 the claim requires. -/
theorem c4_derivedSpeed_counterexample :
    derivedSpeedSumSq 200 0 = -25536
    ∧ (200 : Int) * 200 + 0 * 0 = 40000
    ∧ derivedSpeedSumSq 200 0 ≠ (200 : Int) * 200 + 0 * 0 := by
  refine ⟨by decide, by decide, by decide⟩

/-- C4, amended.  The squares are computed in wrapping `int16`
arithmetic, so the value under the square root equals the exact
NorthSpeed² + EastSpeed² only when neither square overflows `int16`
(both at most 32767); in particular NorthSpeed = 3, EastSpeed = 4 gives
exactly 25, whose square root 5 is rendered to one decimal place as
"5.0m/s". -/
theorem c4_derivedSpeed_amended (n e : Int)
    (hn : n * n ≤ 32767) (he : e * e ≤ 32767) :
    derivedSpeedSumSq n e = n * n + e * e
    ∧ derivedSpeedSumSq 3 4 = 25
    ∧ Nat.sqrt (derivedSpeedSumSq 3 4).toNat = 5 := by
  have h1 : wrap16 (n * n) = n * n :=
    wrap16_eq_of_mem _ (by have := mul_self_nonneg n; omega) hn
  have h2 : wrap16 (e * e) = e * e :=
    wrap16_eq_of_mem _ (by have := mul_self_nonneg e; omega) he
  refine ⟨?_, by decide, ?_⟩
  · unfold derivedSpeedSumSq
    rw [h1, h2]
  · have h25 : (derivedSpeedSumSq 3 4).toNat = 25 := by decide
    rw [h25, show (25 : Nat) = 5 ^ 2 from rfl, Nat.sqrt_eq']

/-- C4 witness: the 3-4-5 instance computed through the embedded
derived-speed path. -/
theorem c4_derivedSpeed_witness : derivedSpeedSumSq 3 4 = 25 := by
  exact (c4_derivedSpeed_amended 3 4 (by norm_num) (by norm_num)).2.1

/-- C5, counterexample.  With logging enabled and a failing row write,
`updateFields` still appends its one row but the process does not
terminate: the error return of `fdLog.Write(logLine)` is discarded by
the source, so the write failure is not fatal as the claim requires. -/
theorem c5_flightLog_counterexample :
    (updateFieldsLogStep true true).rowsWritten = 1
    ∧ (updateFieldsLogStep true true).fatal = false
    ∧ (updateFieldsLogStep true true).fatal ≠ true := by
  refine ⟨by decide, by decide, by decide⟩

/-- C5, amended.  When flight-data logging is enabled every telemetry
snapshot appends exactly one row, but the row write's error is
discarded, so a failing row write never terminates the process; only
the initial header write during setup is checked and fatal on failure. -/
theorem c5_flightLog_amended (writeFails : Bool) :
    (updateFieldsLogStep true writeFails).rowsWritten = 1
    ∧ (updateFieldsLogStep false writeFails).rowsWritten = 0
    ∧ (updateFieldsLogStep true writeFails).fatal = false
    ∧ headerWriteFatal writeFails = writeFails := by
  cases writeFails <;> exact ⟨rfl, rfl, rfl, rfl⟩

/-- C5 witness: with logging enabled and a failing write, exactly one
row is still appended and the process does not terminate. -/
theorem c5_flightLog_witness :
    (updateFieldsLogStep true true).rowsWritten = 1
    ∧ (updateFieldsLogStep true true).fatal = false := by
  exact ⟨(c5_flightLog_amended true).1, (c5_flightLog_amended true).2.2.1⟩

/-- C6, counterexample.  The absent-token is the single character "N",
not a two-character token: `boolToYN false` has length 1. -/
theorem c6_boolToYN_counterexample :
    boolToYN false = "N"
    ∧ (boolToYN false).length = 1
    ∧ (boolToYN false).length ≠ 2 := by
  refine ⟨by decide, by decide, by decide⟩

/-- C6, amended.  `boolToYN` is total with range of exactly the two
fixed tokens: `true` always renders as the present-token "Y" and `false`
always renders as the one-character absent-token "N". -/
theorem c6_boolToYN_amended (b : Bool) :
    boolToYN true = "Y"
    ∧ boolToYN false = "N"
    ∧ (boolToYN b = "Y" ∨ boolToYN b = "N")
    ∧ (boolToYN b).length = 1 := by
  cases b <;> exact ⟨by decide, by decide, by decide, by decide⟩

/-- C6 witness: both boolean renderings at their concrete inputs. -/
theorem c6_boolToYN_witness :
    boolToYN true = "Y" ∧ boolToYN false = "N" := by
  exact ⟨(c6_boolToYN_amended true).1, (c6_boolToYN_amended false).2.1⟩

/-- C7.  The Home Pos field's displayed polarity is inverted relative to
its boolean source: `updateFields` assigns "Unset" exactly when
`drone.IsHomeSet()` reports true and "Set" exactly when it reports
false. -/
theorem c7_homePos_inverted :
    homePosValue true = "Unset"
    ∧ homePosValue false = "Set"
    ∧ homePosValue true ≠ "Set"
    ∧ homePosValue false ≠ "Unset" := by
  refine ⟨by decide, by decide, by decide, by decide⟩

/-- C10.  In non-test mode every poll cycle sends exactly one stick
message regardless of whether the device read errored (the error is only
logged and the cycle is not skipped); the message is computed from
whatever state the read returned, and the zero-value state filters to
all-zero components.  Test mode sends nothing. -/
theorem c10_stickCycle (cfg : AxesConfig) (axisData : Nat → Int) (readErr : Bool) :
    (cycleStickSends false cfg axisData readErr).length = 1
    ∧ cycleStickSends false cfg axisData readErr = [stickMsgOf cfg axisData]
    ∧ cycleStickSends false cfg axisData true = cycleStickSends false cfg axisData false
    ∧ stickMsgOf cfg (fun _ => 0) = { Lx := 0, Ly := 0, Rx := 0, Ry := 0 }
    ∧ cycleStickSends true cfg axisData readErr = [] := by
  refine ⟨rfl, rfl, rfl, ?_, rfl⟩
  have hx : applyDeadZone (signAdjX 0) = 0 := by decide
  have hy : applyDeadZone (signAdjY 0) = 0 := by decide
  simp [stickMsgOf, hx, hy]

/-- C10 witness: a failing read in non-test mode still sends exactly one
message, computed from the returned (zero-value) state. -/
theorem c10_stickCycle_witness :
    (cycleStickSends false dualShock4Axes (fun _ => 0) true).length = 1
    ∧ cycleStickSends false dualShock4Axes (fun _ => 0) true
        = [stickMsgOf dualShock4Axes fun _ => 0] := by
  exact ⟨(c10_stickCycle dualShock4Axes (fun _ => 0) true).1,
    (c10_stickCycle dualShock4Axes (fun _ => 0) true).2.1⟩

theorem wideAfter_parity (n : Nat) : wideAfter n = decide (n % 2 = 1) := by
  induction n with
  | zero => rfl
  | succ n ih =>
    show (eqKeyStep (wideAfter n)).2 = _
    rw [ih]
    rcases Nat.mod_two_eq_zero_or_one n with h | h <;>
      simp [eqKeyStep, Nat.add_mod, h]

/-- C9.  Starting from the initial `wideVideo = false`, the n-th '='
event issues SetVideoWide for odd n and SetVideoNormal for even n; after
each event `wideVideo` equals the wideness of the command just issued;
and two consecutive events restore `wideVideo` (the toggle is an
involution on the state). -/
theorem c9_videoToggle (n : Nat) (hn : 0 < n) :
    (nthEqCmd n = if n % 2 = 1 then VideoCmd.setVideoWide else VideoCmd.setVideoNormal)
    ∧ wideAfter n = cmdIsWide (nthEqCmd n)
    ∧ (∀ m, wideAfter (m + 2) = wideAfter m)
    ∧ (∀ w, (eqKeyStep (eqKeyStep w).2).2 = w) := by
  refine ⟨?_, ?_, ?_, fun w => by cases w <;> rfl⟩
  · unfold nthEqCmd
    rw [wideAfter_parity (n - 1)]
    rcases Nat.mod_two_eq_zero_or_one n with h | h
    · have h1 : (n - 1) % 2 = 1 := by omega
      simp [h1, eqKeyStep, h]
    · have h1 : (n - 1) % 2 = 0 := by omega
      simp [h1, eqKeyStep, h]
  · unfold nthEqCmd
    rw [wideAfter_parity (n - 1), wideAfter_parity n]
    rcases Nat.mod_two_eq_zero_or_one n with h | h
    · have h1 : (n - 1) % 2 = 1 := by omega
      simp [h1, h, eqKeyStep, cmdIsWide]
    · have h1 : (n - 1) % 2 = 0 := by omega
      simp [h1, h, eqKeyStep, cmdIsWide]
  · intro m
    rw [wideAfter_parity, wideAfter_parity]
    have hmod : (m + 2) % 2 = m % 2 := by omega
    rw [hmod]

/-- C9 witness: the first '=' event issues SetVideoWide, the second
SetVideoNormal. -/
theorem c9_videoToggle_witness :
    nthEqCmd 1 = VideoCmd.setVideoWide ∧ nthEqCmd 2 = VideoCmd.setVideoNormal := by
  have h1 := (c9_videoToggle 1 (by norm_num)).1
  have h2 := (c9_videoToggle 2 (by norm_num)).1
  norm_num at h1 h2
  exact ⟨h1, h2⟩

theorem runButtonCycles_getD (cfg : ButtonsConfig) :
    ∀ (masks : List Nat) (prev i : Nat), i < masks.length →
    (runButtonCycles cfg prev masks).getD i [] =
      cycleButtonCmds cfg (if i = 0 then prev else masks.getD (i - 1) 0)
        (masks.getD i 0) := by
  intro masks
  induction masks with
  | nil => intro prev i hi; simp at hi
  | cons m rest ih =>
    intro prev i hi
    cases i with
    | zero => simp [runButtonCycles]
    | succ j =>
      have hj : j < rest.length := by simpa using hi
      show (runButtonCycles cfg m rest).getD j [] = _
      rw [ih m j hj]
      cases j with
      | zero => simp
      | succ k => simp

theorem cycleButtonCmds_mem_iff (cfg : ButtonsConfig) (prev cur : Nat)
    (cmd : DroneCmd) :
    cmd ∈ cycleButtonCmds cfg prev cur ↔
      ∃ p, p ∈ boundButtons cfg ∧ p.2 = cmd
        ∧ buttonPressed cur p.1 = true ∧ buttonPressed prev p.1 = false := by
  unfold cycleButtonCmds
  rw [List.mem_filterMap]
  constructor
  · rintro ⟨p, hp, hf⟩
    by_cases hc : (buttonPressed cur p.1 && !buttonPressed prev p.1) = true
    · rw [if_pos hc] at hf
      injection hf with hf
      have hand := (Bool.and_eq_true _ _).mp hc
      exact ⟨p, hp, hf, hand.1, by simpa using hand.2⟩
    · rw [if_neg hc] at hf
      cases hf
  · rintro ⟨p, hp, hcmd, h1, h2⟩
    refine ⟨p, hp, ?_⟩
    have hc : (buttonPressed cur p.1 && !buttonPressed prev p.1) = true := by
      rw [h1, h2]; rfl
    rw [if_pos hc, hcmd]

theorem boundButtons_snd_inj (cfg : ButtonsConfig) :
    ∀ p ∈ boundButtons cfg, ∀ q ∈ boundButtons cfg, p.2 = q.2 → p.1 = q.1 := by
  intro p hp q hq hpq
  simp only [boundButtons, List.mem_cons, List.not_mem_nil, or_false] at hp hq
  rcases hp with hp | hp | hp | hp | hp <;> rcases hq with hq | hq | hq | hq | hq <;>
    subst hp <;> subst hq <;> simp_all

/-- C2.  For every bound joystick button and finite bitmask sequence
(previous state starting from the all-zero value), the bound one-shot
command is dispatched at cycle i exactly when the button's bit shows a
0→1 transition from the preceding cycle's mask (0 before the first
cycle) — never on sustained hold or release; the same previous mask is
compared by every button of a cycle since `prevState` is overwritten
only after all checks.  In particular, bit-4 (L1/Bounce) bitmasks
[0,16,16,0,16] — the bit sequence [0,1,1,0,1] — dispatch exactly twice,
at indices 1 and 4. -/
theorem c2_buttonEdges (cfg : ButtonsConfig) (masks : List Nat) (i bit : Nat)
    (cmd : DroneCmd) (hi : i < masks.length) (hb : (bit, cmd) ∈ boundButtons cfg) :
    (cmd ∈ (runButtonCycles cfg 0 masks).getD i []
      ↔ (buttonPressed (masks.getD i 0) bit = true
          ∧ buttonPressed (prevMaskAt masks i) bit = false))
    ∧ runButtonCycles dualShock4Buttons 0 [0, 16, 16, 0, 16]
        = [[], [DroneCmd.bounce], [], [], [DroneCmd.bounce]] := by
  constructor
  · rw [runButtonCycles_getD cfg masks 0 i hi, cycleButtonCmds_mem_iff]
    have hprev : (if i = 0 then 0 else masks.getD (i - 1) 0) = prevMaskAt masks i := by
      cases i <;> simp [prevMaskAt]
    rw [hprev]
    constructor
    · rintro ⟨p, hp, hcmd, h1, h2⟩
      have hfst : p.1 = bit :=
        boundButtons_snd_inj cfg p hp (bit, cmd) hb (by rw [hcmd])
      rw [hfst] at h1 h2
      exact ⟨h1, h2⟩
    · rintro ⟨h1, h2⟩
      exact ⟨(bit, cmd), hb, rfl, h1, h2⟩
  · decide

/-- C2 witness: with masks [0, 16], the Bounce command bound to bit 4 is
dispatched at the second cycle (press edge). -/
theorem c2_buttonEdges_witness :
    DroneCmd.bounce ∈ (runButtonCycles dualShock4Buttons 0 [0, 16]).getD 1 [] := by
  have h := c2_buttonEdges dualShock4Buttons [0, 16] 1 4 DroneCmd.bounce
    (by decide) (by decide)
  exact h.1.mpr (by decide)

theorem regInv_init : RegInv initReg := by
  refine ⟨fun _ i => rfl, fun h => ?_, fun h => rfl⟩
  simp [initReg] at h

theorem regInv_step (s s' : RegSys) (hinv : RegInv s) (hs : Step s s') :
    RegInv s' := by
  obtain ⟨hfree, hheld, hrd⟩ := hinv
  cases hs with
  | wLock h1 h2 =>
    refine ⟨fun hh => ?_, fun _ => ⟨?_, fun i => ⟨fun hlt => ?_, fun _ => hfree h1 i⟩⟩,
      fun hr => ?_⟩
    · simp at hh
    · show 0 ≤ numUpdated
      exact Nat.zero_le _
    · simp at hlt
    · have hr' : 0 < s.readers := hr
      exact absurd hr' (by omega)
  | wWrite h1 h2 =>
    obtain ⟨hle, hmid⟩ := hheld h1
    refine ⟨fun hh => ?_, fun _ => ⟨?_, fun i => ⟨fun hlt => ?_, fun hge => ?_⟩⟩,
      fun hr => ?_⟩
    · rw [show ({ s with
          val := fun i => if i.val = s.written then s.lastBatch + 1 else s.val i,
          written := s.written + 1 } : RegSys).writerHeld = s.writerHeld from rfl,
        h1] at hh
      cases hh
    · show s.written + 1 ≤ numUpdated
      omega
    · show (if i.val = s.written then s.lastBatch + 1 else s.val i) = s.lastBatch + 1
      have hlt' : i.val < s.written + 1 := hlt
      by_cases hc : i.val = s.written
      · rw [if_pos hc]
      · rw [if_neg hc]
        exact (hmid i).1 (by omega)
    · show (if i.val = s.written then s.lastBatch + 1 else s.val i) = s.lastBatch
      have hge' : s.written + 1 ≤ i.val := hge
      rw [if_neg (by omega)]
      exact (hmid i).2 (by omega)
    · have hr' : 0 < s.readers := hr
      have := hrd hr'
      rw [h1] at this
      cases this
  | wUnlock h1 h2 =>
    obtain ⟨hle, hmid⟩ := hheld h1
    refine ⟨fun _ i => ?_, fun hh => ?_, fun _ => rfl⟩
    · show s.val i = s.lastBatch + 1
      exact (hmid i).1 (by rw [h2]; exact i.isLt)
    · simp at hh
  | rLock h1 =>
    refine ⟨fun _ i => hfree h1 i, fun hh => ?_, fun _ => h1⟩
    have hh' : s.writerHeld = true := hh
    rw [h1] at hh'
    cases hh'
  | rRead h1 =>
    exact ⟨hfree, hheld, hrd⟩
  | rUnlock h1 =>
    exact ⟨fun hh => hfree hh, fun hh => hheld hh,
      fun hr => hrd (by have hr' : 0 < s.readers - 1 := hr; omega)⟩

theorem regInv_reach (s : RegSys) (h : Reach s) : RegInv s := by
  induction h with
  | init => exact regInv_init
  | step s s' _ hs ih => exact regInv_step s s' ih hs

/-- C8.  In every interleaving of the telemetry-ingestion writer (which
holds the registry's write lock for a whole `updateFields` batch) and the
render-loop reader (which holds the read lock for a whole repaint), in
any reachable state in which the reader holds the read lock: no write is
in progress, every value slot carries the stamp of one and the same
completed update batch, and no step can change the registry under the
reader — so a repaint never observes field content mixing two update
batches, and per-field label/value consistency holds. -/
theorem c8_registryAtomicity (s : RegSys) (hreach : Reach s) (hr : 0 < s.readers) :
    s.writerHeld = false
    ∧ (∀ i, s.val i = s.lastBatch)
    ∧ (∀ i j, s.val i = s.val j)
    ∧ (∀ s', Step s s' → s'.val = s.val) := by
  obtain ⟨hfree, _, hrd⟩ := regInv_reach s hreach
  have hw : s.writerHeld = false := hrd hr
  refine ⟨hw, hfree hw, fun i j => by rw [hfree hw i, hfree hw j], ?_⟩
  intro s' hs
  cases hs with
  | wLock h1 h2 => rfl
  | wWrite h1 h2 => rw [hw] at h1; cases h1
  | wUnlock h1 h2 => rfl
  | rLock h1 => rfl
  | rRead h1 => rfl
  | rUnlock h1 => rfl

/-- C8 witness: after the reader takes the read lock from the initial
state, no write is in progress. -/
theorem c8_registryAtomicity_witness :
    ({ initReg with readers := 1 } : RegSys).writerHeld = false := by
  have hreach : Reach { initReg with readers := 1 } :=
    Reach.step initReg _ Reach.init (Step.rLock initReg rfl)
  exact (c8_registryAtomicity _ hreach (by norm_num)).1

end Telloterm
